import Mathlib

/-!
Verification of the recipe-viewer front end (src/script.js) against its
natural-language specification.

The script manipulates three kinds of state:

* a durable key-value slot (browser local storage) holding the JSON-serialized
  saved-name list,
* the single mutable `currentRecipe` reference plus the rendered HTML regions
  (`recipeDisplay`, `remixOutput`, the saved-recipes container/list),
* two outbound HTTP calls (the recipe catalog and the remix service).

Recipes, parsed response bodies and everything that goes through
`JSON.parse` / `JSON.stringify` are modelled by the `Json` inductive below.
JavaScript `undefined` is modelled as `Option.none` wherever a value can be
absent; JS exceptions are modelled with `Except String`.  Network outcomes are
passed to the event-handler functions as explicit arguments (`FetchResult`,
`RemixNet`), and the DOM mutations each handler performs are modelled as pure
state transformers.  Numbers are kept as their source token (this model never
needs numeric arithmetic), and `JSON.stringify` of a number prints that token
back.  Event-listener wiring (addEventListener plumbing) is outside the model;
each handler body is translated directly.
-/

/-- JSON values as produced by `JSON.parse`.  Numbers keep their source token. -/
inductive Json where
  | null : Json
  | bool (b : Bool) : Json
  | num (t : String) : Json
  | str (s : String) : Json
  | arr (xs : List Json) : Json
  | obj (kvs : List (String × Json)) : Json

/-- Value of a hexadecimal digit, as accepted in a JSON `\uXXXX` escape. -/
def hexVal (c : Char) : Option Nat :=
  if '0' ≤ c ∧ c ≤ '9' then some (c.toNat - '0'.toNat)
  else if 'a' ≤ c ∧ c ≤ 'f' then some (c.toNat - 'a'.toNat + 10)
  else if 'A' ≤ c ∧ c ≤ 'F' then some (c.toNat - 'A'.toNat + 10)
  else none

/-- Named JSON string escapes (`\" \\ \/ \b \f \n \r \t`). -/
def escMap (e : Char) : Option Char :=
  if e = '"' then some '"'
  else if e = '\\' then some '\\'
  else if e = '/' then some '/'
  else if e = 'b' then some '\x08'
  else if e = 'f' then some '\x0c'
  else if e = 'n' then some '\n'
  else if e = 'r' then some '\r'
  else if e = 't' then some '\t'
  else none

/-- Body of a JSON string literal (after the opening quote): returns the decoded
characters and the input remaining after the closing quote.  Raw control
characters are rejected, as `JSON.parse` rejects them. -/
def parseStrChars : List Char → Option (List Char × List Char)
  | [] => none
  | c :: cs =>
    if c = '"' then some ([], cs)
    else if c = '\\' then
      match cs with
      | [] => none
      | e :: cs1 =>
        if e = 'u' then
          match cs1 with
          | h1 :: h2 :: h3 :: h4 :: cs2 =>
            match hexVal h1, hexVal h2, hexVal h3, hexVal h4 with
            | some a, some b, some c3, some d =>
              (parseStrChars cs2).map
                (fun p => (Char.ofNat (((a * 16 + b) * 16 + c3) * 16 + d) :: p.1, p.2))
            | _, _, _, _ => none
          | _ => none
        else
          match escMap e with
          | some v => (parseStrChars cs1).map (fun p => (v :: p.1, p.2))
          | none => none
    else if c.toNat < 0x20 then none
    else (parseStrChars cs).map (fun p => (c :: p.1, p.2))

/-- JSON insignificant whitespace. -/
def jsonWs (c : Char) : Bool := c = ' ' || c = '\t' || c = '\n' || c = '\r'

/-- Skip JSON whitespace. -/
def dropWs (cs : List Char) : List Char := cs.dropWhile jsonWs

/-- ASCII digit test. -/
def isDigitC (c : Char) : Bool := '0' ≤ c && c ≤ '9'

/-- One or more digits. -/
def parseDigits (cs : List Char) : Option (List Char × List Char) :=
  let p := cs.span isDigitC
  if p.1 = [] then none else some p

/-- Integer part of a JSON number (no leading zeros). -/
def parseIntPart : List Char → Option (List Char × List Char)
  | '0' :: cs => some (['0'], cs)
  | cs => parseDigits cs

/-- Optional fraction part of a JSON number. -/
def parseFracPart : List Char → Option (List Char × List Char)
  | '.' :: cs => (parseDigits cs).map (fun p => ('.' :: p.1, p.2))
  | cs => some ([], cs)

/-- Optional exponent part of a JSON number. -/
def parseExpPart : List Char → Option (List Char × List Char)
  | e :: cs =>
    if e = 'e' ∨ e = 'E' then
      match cs with
      | '+' :: cs1 => (parseDigits cs1).map (fun p => (e :: '+' :: p.1, p.2))
      | '-' :: cs1 => (parseDigits cs1).map (fun p => (e :: '-' :: p.1, p.2))
      | cs1 => (parseDigits cs1).map (fun p => (e :: p.1, p.2))
    else some ([], e :: cs)
  | [] => some ([], [])

/-- A JSON number token, kept verbatim. -/
def parseNumber (cs : List Char) : Option (List Char × List Char) :=
  let sp := match cs with
    | '-' :: r => (['-'], r)
    | r => (([] : List Char), r)
  match parseIntPart sp.2 with
  | none => none
  | some (ip, cs2) =>
    match parseFracPart cs2 with
    | none => none
    | some (fp, cs3) =>
      match parseExpPart cs3 with
      | none => none
      | some (ep, cs4) => some (sp.1 ++ ip ++ fp ++ ep, cs4)

mutual

/-- Recursive-descent JSON value parser (fuel-indexed to make the nesting
recursion structural; `parseJson` supplies ample fuel). -/
def parseVal : Nat → List Char → Option (Json × List Char)
  | 0, _ => none
  | Nat.succ f, cs =>
    match dropWs cs with
    | 'n' :: 'u' :: 'l' :: 'l' :: r => some (.null, r)
    | 't' :: 'r' :: 'u' :: 'e' :: r => some (.bool true, r)
    | 'f' :: 'a' :: 'l' :: 's' :: 'e' :: r => some (.bool false, r)
    | '"' :: r => (parseStrChars r).map (fun p => (.str ⟨p.1⟩, p.2))
    | '[' :: r =>
      (match dropWs r with
       | ']' :: r2 => some (.arr [], r2)
       | r2 => (parseElems f r2).map (fun p => (.arr p.1, p.2)))
    | '\x7b' :: r =>
      (match dropWs r with
       | '\x7d' :: r2 => some (.obj [], r2)
       | r2 => (parseMembers f r2).map (fun p => (.obj p.1, p.2)))
    | r => (parseNumber r).map (fun p => (.num ⟨p.1⟩, p.2))

/-- Non-empty comma-separated array elements, consuming the closing bracket. -/
def parseElems : Nat → List Char → Option (List Json × List Char)
  | 0, _ => none
  | Nat.succ f, cs =>
    match parseVal f cs with
    | none => none
    | some (v, r) =>
      match dropWs r with
      | ',' :: r2 =>
        match parseElems f r2 with
        | none => none
        | some (vs, r3) => some (v :: vs, r3)
      | ']' :: r2 => some ([v], r2)
      | _ => none

/-- Non-empty comma-separated object members, consuming the closing brace. -/
def parseMembers : Nat → List Char → Option (List (String × Json) × List Char)
  | 0, _ => none
  | Nat.succ f, cs =>
    match dropWs cs with
    | '"' :: r =>
      (match parseStrChars r with
       | none => none
       | some (k, r1) =>
         match dropWs r1 with
         | ':' :: r2 =>
           (match parseVal f r2 with
            | none => none
            | some (v, r3) =>
              match dropWs r3 with
              | ',' :: r4 =>
                (match parseMembers f r4 with
                 | none => none
                 | some (ms, r5) => some ((⟨k⟩, v) :: ms, r5))
              | '\x7d' :: r4 => some ([(⟨k⟩, v)], r4)
              | _ => none)
         | _ => none)
    | _ => none

end

/-- Models `JSON.parse`: `some` of the parsed value on well-formed input,
`none` where `JSON.parse` would throw a `SyntaxError`. -/
def parseJson (s : String) : Option Json :=
  match parseVal (s.data.length + 1) s.data with
  | some (j, r) => if dropWs r = [] then some j else none
  | none => none

/-- Lowercase hexadecimal digit, as emitted by `JSON.stringify` escapes. -/
def hexDigitChar (n : Nat) : Char :=
  if n < 10 then Char.ofNat ('0'.toNat + n) else Char.ofNat ('a'.toNat + (n - 10))

/-- Per-character JSON string escaping as done by `JSON.stringify`. -/
def escChar (c : Char) : List Char :=
  if c = '"' then ['\\', '"']
  else if c = '\\' then ['\\', '\\']
  else if c = '\n' then ['\\', 'n']
  else if c = '\r' then ['\\', 'r']
  else if c = '\t' then ['\\', 't']
  else if c = '\x08' then ['\\', 'b']
  else if c = '\x0c' then ['\\', 'f']
  else if c.toNat < 0x20 then ['\\', 'u', '0', '0', hexDigitChar (c.toNat / 16), hexDigitChar (c.toNat % 16)]
  else [c]

/-- Escape a character sequence for a JSON string literal. -/
def escChars : List Char → List Char
  | [] => []
  | c :: cs => escChar c ++ escChars cs

/-- A JSON string literal for `s`, quotes included (as `JSON.stringify` emits). -/
def serStr (s : String) : String := ⟨'"' :: (escChars s.data ++ ['"'])⟩

mutual

/-- Models compact `JSON.stringify` (no indent), as used for the saved list. -/
def stringifyJson : Json → String
  | .null => "null"
  | .bool true => "true"
  | .bool false => "false"
  | .num t => t
  | .str s => serStr s
  | .arr xs => "[" ++ stringifyElems xs ++ "]"
  | .obj kvs => "\x7b" ++ stringifyMembers kvs ++ "\x7d"

/-- Comma-separated serialized array elements. -/
def stringifyElems : List Json → String
  | [] => ""
  | [x] => stringifyJson x
  | x :: y :: xs => stringifyJson x ++ "," ++ stringifyElems (y :: xs)

/-- Comma-separated serialized object members. -/
def stringifyMembers : List (String × Json) → String
  | [] => ""
  | [(k, v)] => serStr k ++ ":" ++ stringifyJson v
  | (k, v) :: m :: ms => serStr k ++ ":" ++ stringifyJson v ++ "," ++ stringifyMembers (m :: ms)

end

/-- Indentation emitted by `JSON.stringify(x, null, 2)` at nesting level `lvl`. -/
def ppIndent (lvl : Nat) : String := ⟨List.replicate (2 * lvl) ' '⟩

mutual

/-- Models pretty `JSON.stringify(x, null, 2)`, as used in the remix prompt. -/
def ppJson : Json → Nat → String
  | .arr [], _ => "[]"
  | .arr (x :: xs), lvl =>
    "[\n" ++ ppElems (x :: xs) (lvl + 1) ++ "\n" ++ ppIndent lvl ++ "]"
  | .obj [], _ => "\x7b\x7d"
  | .obj (m :: ms), lvl =>
    "\x7b\n" ++ ppMembers (m :: ms) (lvl + 1) ++ "\n" ++ ppIndent lvl ++ "\x7d"
  | j, _ => stringifyJson j

/-- Pretty-printed array elements, one per line. -/
def ppElems : List Json → Nat → String
  | [], _ => ""
  | [x], lvl => ppIndent lvl ++ ppJson x lvl
  | x :: y :: xs, lvl => ppIndent lvl ++ ppJson x lvl ++ ",\n" ++ ppElems (y :: xs) lvl

/-- Pretty-printed object members, one per line. -/
def ppMembers : List (String × Json) → Nat → String
  | [], _ => ""
  | [(k, v)], lvl => ppIndent lvl ++ serStr k ++ ": " ++ ppJson v lvl
  | (k, v) :: m :: ms, lvl =>
    ppIndent lvl ++ serStr k ++ ": " ++ ppJson v lvl ++ ",\n" ++ ppMembers (m :: ms) lvl

end

mutual

/-- Models the JavaScript `String()` coercion used by template literals and
`textContent` assignment. -/
def jsToString : Json → String
  | .null => "null"
  | .bool true => "true"
  | .bool false => "false"
  | .num t => t
  | .str s => s
  | .arr xs => jsArrToString xs
  | .obj _ => "[object Object]"

/-- Array coercion: elements joined by commas, `null` rendering empty. -/
def jsArrToString : List Json → String
  | [] => ""
  | [.null] => ""
  | [x] => jsToString x
  | .null :: y :: xs => "," ++ jsArrToString (y :: xs)
  | x :: y :: xs => jsToString x ++ "," ++ jsArrToString (y :: xs)

end

/-- Object property lookup.  `JSON.parse` keeps the last of duplicate keys, so
the fold keeps the last binding. -/
def lookupLast (kvs : List (String × Json)) (k : String) : Option Json :=
  kvs.foldl (fun acc kv => if kv.1 = k then some kv.2 else acc) none

/-- Plain property access `j[k]` / `j.k`: throws on `null`, `undefined`
(`none`) on non-objects, lookup on objects.  Built-in properties of
primitives/arrays are not modelled (none is ever accessed by the script). -/
def jsGetE (j : Json) (k : String) : Except String (Option Json) :=
  match j with
  | .null => .error "TypeError: Cannot read properties of null"
  | .obj kvs => .ok (lookupLast kvs k)
  | _ => .ok none

/-- Optional-chaining property access `o?.k`: short-circuits `undefined` on
`null`/`undefined`, never throws. -/
def jsGetOpt (o : Option Json) (k : String) : Option Json :=
  match o with
  | none => none
  | some .null => none
  | some (.obj kvs) => lookupLast kvs k
  | some _ => none

/-- Optional-chaining index access `o?.[i]`. -/
def jsIndexOpt (o : Option Json) (i : Nat) : Option Json :=
  match o with
  | none => none
  | some .null => none
  | some (.arr xs) => xs.get? i
  | some (.obj kvs) => lookupLast kvs (toString i)
  | some (.str s) => (s.data.get? i).map (fun c => .str ⟨[c]⟩)
  | some _ => none

/-- Truthiness of a JSON number token: falsy exactly when its mantissa has no
nonzero digit (`0`, `-0`, `0.00`, `0e9`, ...). -/
def numTruthy (t : String) : Bool :=
  (t.data.takeWhile (fun c => c ≠ 'e' && c ≠ 'E')).any (fun c => '1' ≤ c && c ≤ '9')

/-- JavaScript truthiness of a possibly-undefined value. -/
def jsTruthy : Option Json → Bool
  | none => false
  | some .null => false
  | some (.bool b) => b
  | some (.num t) => numTruthy t
  | some (.str s) => !s.data.isEmpty
  | some (.arr _) => true
  | some (.obj _) => true

/-- Template-literal interpolation of a possibly-undefined value. -/
def jsToStringOpt : Option Json → String
  | none => "undefined"
  | some j => jsToString j

/-- Both-ends whitespace trim on a character list. -/
def trimWs (cs : List Char) : List Char :=
  ((cs.dropWhile Char.isWhitespace).reverse.dropWhile Char.isWhitespace).reverse

/-- Models `String.prototype.trim` (over the ASCII whitespace the catalog data
can contain). -/
def jsStrTrim (s : String) : String := ⟨trimWs s.data⟩

/-- Method call `v.trim()`: a `TypeError` unless `v` is a string. -/
def jsTrimE : Option Json → Except String String
  | some (.str s) => .ok (jsStrTrim s)
  | _ => .error "TypeError: trim is not a function"

/-! ## Persisted name list (src/script.js:70-96, 143-148)

The durable slot (`localStorage` under the fixed key) is an `Option String`:
`none` when the key is absent.  Each helper consumes the slot state and
returns the new slot state; a JS exception escaping the helper is `.error`. -/

/-- Models `getSavedRecipes` (src/script.js:71-79): read the slot and
`JSON.parse` it; any read/parse failure (or an absent / empty-string slot,
which is falsy) yields `[]`. -/
def getSavedRecipes (slot : Option String) : Json :=
  match slot with
  | none => .arr []
  | some raw =>
    if raw = "" then .arr []
    else
      match parseJson raw with
      | some j => j
      | none => .arr []

/-- Models `setSavedRecipes` (src/script.js:81-87): serialize and write the
slot (storage write failures are not in the claims' scope and not modelled). -/
def setSavedRecipes (list : Json) : Option String := some (stringifyJson list)

/-- Strict-equality test `element === name` for a string `name`, as used by
`Array.prototype.includes` / the filter in `deleteSavedRecipe`. -/
def jsStrMatch (name : String) : Json → Bool
  | .str s => s == name
  | _ => false

/-- Models `saveRecipeName` (src/script.js:89-96): load, and only when `name`
is not already present, push it and persist.  Calling `includes` on a
non-array load result would throw. -/
def saveRecipeName (name : String) (slot : Option String) : Except String (Option String) :=
  match getSavedRecipes slot with
  | .arr xs =>
    if xs.any (jsStrMatch name) then .ok slot
    else .ok (setSavedRecipes (.arr (xs ++ [.str name])))
  | _ => .error "TypeError: list.includes is not a function"

/-- Models `deleteSavedRecipe` (src/script.js:143-148): load, filter out all
entries strictly equal to `name`, persist the result. -/
def deleteSavedRecipe (name : String) (slot : Option String) : Except String (Option String) :=
  match getSavedRecipes slot with
  | .arr xs => .ok (setSavedRecipes (.arr (xs.filter (fun j => !jsStrMatch name j))))
  | _ => .error "TypeError: list.filter is not a function"

/-- Observable result of `renderSavedRecipesList`: the container's
`style.display` value and the rendered item texts in order.  (The per-item
click/delete listeners are event wiring, outside the model.) -/
structure SavedView where
  containerDisplay : String
  items : List String

/-- Models `renderSavedRecipesList` (src/script.js:98-141): hide the container
and clear the markup when the loaded list is empty, otherwise show it and
append one item per entry, in order (`textContent` coerces each entry). -/
def renderSavedRecipesList (slot : Option String) : Except String SavedView :=
  match getSavedRecipes slot with
  | .arr xs =>
    if xs.length == 0 then .ok ⟨"none", []⟩
    else .ok ⟨"", xs.map jsToString⟩
  | _ => .error "TypeError: list.forEach is not a function"

/-! ## Ingredient lists (src/script.js:27-35, 187-192) -/

/-- Indexed ingredient field name. -/
def ingKey (i : Nat) : String := "strIngredient" ++ toString i

/-- Indexed measure field name. -/
def measKey (i : Nat) : String := "strMeasure" ++ toString i

/-- Loop body accumulation of `getIngredientsHtml` over the remaining indices:
for each index, read the two fields; when the ingredient is truthy and trims
to a nonempty string, append its `<li>`. -/
def getIngredientsHtmlAux (recipe : Json) : List Nat → String → Except String String
  | [], html => .ok html
  | i :: rest, html =>
    match jsGetE recipe (ingKey i) with
    | .error e => .error e
    | .ok ing =>
      match jsGetE recipe (measKey i) with
      | .error e => .error e
      | .ok meas =>
        if jsTruthy ing then
          match jsTrimE ing with
          | .error e => .error e
          | .ok t =>
            if !t.data.isEmpty then
              getIngredientsHtmlAux recipe rest
                (html ++ "<li>" ++ (if jsTruthy meas then jsToStringOpt meas ++ " " else "")
                  ++ jsToStringOpt ing ++ "</li>")
            else getIngredientsHtmlAux recipe rest html
        else getIngredientsHtmlAux recipe rest html

/-- Models `getIngredientsHtml` (src/script.js:27-35): the `i = 1..20` loop
over `strIngredient{i}` / `strMeasure{i}`, skipping blank slots. -/
def getIngredientsHtml (recipe : Json) : Except String String :=
  getIngredientsHtmlAux recipe (List.range' 1 20) ""

/-- Loop body accumulation of the `ingredients` array built at the top of
`remixRecipe` (src/script.js:187-192). -/
def remixIngredientsAux (recipeJson : Json) : List Nat → List String → Except String (List String)
  | [], acc => .ok acc
  | i :: rest, acc =>
    match jsGetE recipeJson (ingKey i) with
    | .error e => .error e
    | .ok ing =>
      match jsGetE recipeJson (measKey i) with
      | .error e => .error e
      | .ok meas =>
        if jsTruthy ing then
          match jsTrimE ing with
          | .error e => .error e
          | .ok t =>
            if !t.data.isEmpty then
              remixIngredientsAux recipeJson rest
                (acc ++ [(if jsTruthy meas then jsToStringOpt meas ++ " " else "")
                  ++ jsToStringOpt ing])
            else remixIngredientsAux recipeJson rest acc
        else remixIngredientsAux recipeJson rest acc

/-- The `ingredients` array computed by `remixRecipe` (src/script.js:187-192):
same 1..20 skip-blank traversal, collected into an array. -/
def remixIngredientsE (recipeJson : Json) : Except String (List String) :=
  remixIngredientsAux recipeJson (List.range' 1 20) []

/-! ## Recipe rendering and the view state (src/script.js:16, 38-68) -/

/-- Replace each `\r\n` or `\n` with `<br>`, per the regex in `renderRecipe`. -/
def brNewlines : List Char → List Char
  | [] => []
  | '\r' :: '\n' :: cs => '<' :: 'b' :: 'r' :: '>' :: brNewlines cs
  | '\n' :: cs => '<' :: 'b' :: 'r' :: '>' :: brNewlines cs
  | c :: cs => c :: brNewlines cs

/-- Method call `v.replace(/\r?\n/g, "<br>")`: a `TypeError` unless `v` is a
string. -/
def jsReplaceBrE : Option Json → Except String String
  | some (.str s) => .ok ⟨brNewlines s.data⟩
  | _ => .error "TypeError: replace is not a function"

/-- The template literal assigned to `recipeDisplay.innerHTML` by
`renderRecipe` (src/script.js:42-54), with its interpolations evaluated
left to right. -/
def recipeHtml (recipe : Json) : Except String String :=
  match jsGetE recipe "strMeal" with
  | .error e => .error e
  | .ok meal =>
  match jsGetE recipe "strMealThumb" with
  | .error e => .error e
  | .ok thumb =>
  match getIngredientsHtml recipe with
  | .error e => .error e
  | .ok ingHtml =>
  match jsGetE recipe "strInstructions" with
  | .error e => .error e
  | .ok instr0 =>
  match jsReplaceBrE instr0 with
  | .error e => .error e
  | .ok instr =>
  .ok ("\n    <div class=\"recipe-title-row\">\n      <h2>" ++ jsToStringOpt meal
    ++ "</h2>\n    </div>\n    <img src=\"" ++ jsToStringOpt thumb
    ++ "\" alt=\"" ++ jsToStringOpt meal
    ++ "\" />\n    <h3>Ingredients:</h3>\n    <ul>" ++ ingHtml
    ++ "</ul>\n    <h3>Instructions:</h3>\n    <p>" ++ instr
    ++ "</p>\n    <div class=\"save-row\">\n      <button id=\"save-recipe-btn\" class=\"main-btn\">Save Recipe</button>\n    </div>\n  ")

/-- The page state the handlers mutate: the recipe region's markup, the
module-level `currentRecipe`, and the remix output region's markup. -/
structure ViewState where
  recipeDisplay : String
  currentRecipe : Option Json
  remixOutput : String

/-- Models `renderRecipe` (src/script.js:38-68): set `currentRecipe` first,
then build and assign the innerHTML.  The returned flag is `false` when
building the template throws (the assignment then never happens and the
exception propagates to the caller); the Save-button listener it wires up is
event plumbing outside the model. -/
def renderRecipe (recipe : Json) (st : ViewState) : ViewState × Bool :=
  let st1 := { st with currentRecipe := some recipe }
  match recipeHtml recipe with
  | .ok h => ({ st1 with recipeDisplay := h }, true)
  | .error _ => (st1, false)

/-! ## Recipe fetch handlers (src/script.js:152-171, 266-281) -/

/-- Outcome of one catalog `fetch`: transport failure (the promise rejects),
or a response with its `ok` flag and the result of `res.json()` (`none` when
the body fails to parse and `res.json()` rejects). -/
inductive FetchResult where
  | netFail : FetchResult
  | resp (ok : Bool) (body : Option Json) : FetchResult

/-- Generic failure message of the random-recipe handler (src/script.js:279). -/
def randomFailMsg : String := "<p>Sorry, couldn\x27t load a recipe.</p>"

/-- Generic failure message of the by-name handler (src/script.js:169); the
source file literally contains the bytes rendered here. -/
def nameFailMsg : String :=
  "<p>Sorry â€” could not load that recipe right now. Please try again later.</p>"

/-- Name-specific not-found message of the by-name handler (src/script.js:162). -/
def notFoundMsg (name : String) : String :=
  "<p>Sorry, I couldn\x27t find the recipe \"" ++ name ++ "\".</p>"

/-- Models `fetchAndDisplayRecipeByName` (src/script.js:152-171).  The second
component records whether a network request was made.  Empty `name` is falsy:
the handler returns before touching anything.  Otherwise: loading text, then
`!res.ok` throws, `res.json()` may throw, a falsy `data?.meals?.[0]` renders
the name-specific not-found message, and a recipe renders via `renderRecipe`
(whose exceptions the same catch turns into the generic message). -/
def fetchAndDisplayRecipeByName (name : String) (net : FetchResult) (st : ViewState) :
    ViewState × Bool :=
  if name = "" then (st, false)
  else
    let st0 := { st with recipeDisplay := "<p>Loading recipe...</p>" }
    match net with
    | .netFail => ({ st0 with recipeDisplay := nameFailMsg }, true)
    | .resp false _ => ({ st0 with recipeDisplay := nameFailMsg }, true)
    | .resp true none => ({ st0 with recipeDisplay := nameFailMsg }, true)
    | .resp true (some data) =>
      match jsIndexOpt (jsGetOpt (some data) "meals") 0 with
      | some r =>
        if jsTruthy (some r) then
          match renderRecipe r st0 with
          | (st1, true) => (st1, true)
          | (st1, false) => ({ st1 with recipeDisplay := nameFailMsg }, true)
        else ({ st0 with recipeDisplay := notFoundMsg name }, true)
      | none => ({ st0 with recipeDisplay := notFoundMsg name }, true)

/-- Models `fetchAndDisplayRandomRecipe` (src/script.js:266-281): loading
text, fetch, `res.json()` (its rejection is caught), `data?.meals?.[0]`, an
explicit throw when that is falsy, then `renderRecipe`; every throw lands in
the one catch that renders the generic message.  Note the handler never reads
`res.ok`. -/
def fetchAndDisplayRandomRecipe (net : FetchResult) (st : ViewState) : ViewState :=
  let st0 := { st with recipeDisplay := "<p>Loading...</p>" }
  match net with
  | .netFail => { st0 with recipeDisplay := randomFailMsg }
  | .resp _ none => { st0 with recipeDisplay := randomFailMsg }
  | .resp _ (some data) =>
    match jsIndexOpt (jsGetOpt (some data) "meals") 0 with
    | some r =>
      if jsTruthy (some r) then
        match renderRecipe r st0 with
        | (st1, true) => st1
        | (st1, false) => { st1 with recipeDisplay := randomFailMsg }
      else { st0 with recipeDisplay := randomFailMsg }
    | none => { st0 with recipeDisplay := randomFailMsg }

/-! ## Remix client (src/script.js:185-263) -/

/-- Outcome of the remix `fetch`: transport failure, a non-success response
(whose text the handler reads into the thrown message), or a success response
with the result of `res.json()`. -/
inductive RemixNet where
  | netFail : RemixNet
  | httpError (status : Nat) (errText : String) : RemixNet
  | success (body : Option Json) : RemixNet

/-- System message of the remix request (src/script.js:213). -/
def remixSystemMsg : String :=
  "You are a playful, concise, and helpful recipe remixing assistant."

/-- Fixed instruction tail of the remix user prompt (src/script.js:196-200). -/
def remixPromptTail : String :=
  "Please produce a short, fun, creative, and totally doable remix of the recipe. "
    ++ "Highlight any changed ingredients (bullet list) and changed or new cooking steps. "
    ++ "Keep it concise and actionable so someone can follow it in the kitchen. "
    ++ "If nothing needs to change for the theme, say so and offer one optional twist. "
    ++ "Only return the remixed recipe (no extraneous commentary)."

/-- The `userPrompt` string of `remixRecipe` (src/script.js:194-200): the
whole raw recipe record pretty-serialized (`JSON.stringify(recipeJson, null,
2)`) followed by the theme and the fixed instructions. -/
def remixUserPrompt (recipeJson : Json) (theme : String) : String :=
  "Here is a recipe in JSON format:\n" ++ ppJson recipeJson 0
    ++ "\n\nRemix theme: \"" ++ theme ++ "\"\n\n" ++ remixPromptTail

/-- The request body `remixRecipe` serializes into the POST
(src/script.js:210-218). -/
def remixRequestBody (recipeJson : Json) (theme : String) : Json :=
  .obj [("model", .str "gpt-4.1"),
        ("messages", .arr [
          .obj [("role", .str "system"), ("content", .str remixSystemMsg)],
          .obj [("role", .str "user"), ("content", .str (remixUserPrompt recipeJson theme))]]),
        ("temperature", .num "0.8"),
        ("max_tokens", .num "500")]

/-- Models `remixRecipe` (src/script.js:185-235): build the (unused)
`ingredients` array and the prompt, perform the request, and return
`data?.choices?.[0]?.message?.content` when truthy; every failure becomes a
thrown error the caller sees. -/
def remixRecipe (recipeJson : Json) (theme : String) (net : RemixNet) : Except String Json :=
  match remixIngredientsE recipeJson with
  | .error e => .error e
  | .ok _ingredients =>
  let _userPrompt := remixUserPrompt recipeJson theme
  let _body := remixRequestBody recipeJson theme
  match net with
  | .netFail => .error "TypeError: Failed to fetch"
  | .httpError status errText =>
    .error ("OpenAI API error: " ++ toString status ++ " " ++ errText)
  | .success none => .error "SyntaxError: Unexpected token in JSON"
  | .success (some data) =>
    let reply := jsGetOpt (jsGetOpt (jsIndexOpt (jsGetOpt (some data) "choices") 0) "message") "content"
    if jsTruthy reply then
      match reply with
      | some j => .ok j
      | none => .error "Empty reply from OpenAI"
    else .error "Empty reply from OpenAI"

/-- Prompt rendered when remixing without a loaded recipe (src/script.js:243). -/
def remixLoadPrompt : String :=
  "<p>Please load a recipe first (click \"Surprise Me Again!\").</p>"

/-- Transient loading message of the remix handler (src/script.js:250); the
source file literally contains the bytes rendered here. -/
def remixLoadingMsg : String :=
  "<p>Stirring the idea pot... your remix is being prepared ðŸ¥„</p>"

/-- Generic remix failure message (src/script.js:260); the source file
literally contains the bytes rendered here. -/
def remixFailMsg : String :=
  "<p>Sorry â€” I couldn\x27t prepare a remix just now. Please try again in a moment.</p>"

/-- The theme the remix handler uses: `remixThemeSelect?.value ||
"Make it interesting"` (src/script.js:247); the select may be absent
(`none`) and an empty selection is falsy. -/
def themeOf : Option String → String
  | some v => if v == "" then "Make it interesting" else v
  | none => "Make it interesting"

/-- Replace each `\n\n` with `<br><br>` (first `.replace` of the handler). -/
def brDoubleNewlines : List Char → List Char
  | '\n' :: '\n' :: cs => '<' :: 'b' :: 'r' :: '>' :: '<' :: 'b' :: 'r' :: '>' :: brDoubleNewlines cs
  | c :: cs => c :: brDoubleNewlines cs
  | [] => []

/-- Replace each `\n` with `<br>` (second `.replace` of the handler). -/
def brSingleNewlines : List Char → List Char
  | '\n' :: cs => '<' :: 'b' :: 'r' :: '>' :: brSingleNewlines cs
  | c :: cs => c :: brSingleNewlines cs
  | [] => []

/-- The two chained `.replace` calls of the remix click handler
(src/script.js:255-257). -/
def formatRemix (s : String) : String := ⟨brSingleNewlines (brDoubleNewlines s.data)⟩

/-- Models the Remix button click handler (src/script.js:239-263): guard on
`currentRecipe`, pick the theme, call `remixRecipe`, and render either the
formatted reply or the generic failure message (a non-string reply would make
`.replace` throw into the same catch). -/
def remixClickHandler (st : ViewState) (themeSelect : Option String) (net : RemixNet) :
    ViewState :=
  match st.currentRecipe with
  | none => { st with remixOutput := remixLoadPrompt }
  | some r =>
    let st0 := { st with remixOutput := remixLoadingMsg }
    match remixRecipe r (themeOf themeSelect) net with
    | .ok (.str s) =>
      { st0 with remixOutput := "<div class=\"remix-result\">" ++ formatRemix s ++ "</div>" }
    | .ok _ => { st0 with remixOutput := remixFailMsg }
    | .error _ => { st0 with remixOutput := remixFailMsg }

/-! ## Abbreviations used by the claim statements -/

/-- A saved-name list as the JSON array `JSON.parse` returns for it. -/
def strArr (l : List String) : Json := .arr (l.map Json.str)

/-- Whether an ingredient slot (a string field or an absent one) survives the
skip-blank rule: present and not whitespace-only. -/
def nonBlankSlot : Option String → Bool
  | some s => !(jsStrTrim s).data.isEmpty
  | none => false

/-- Measure prefix of a rendered ingredient: the measure and a space when the
measure is a nonempty string, nothing otherwise. -/
def measPrefix : Option String → String
  | some m => if m.data.isEmpty then "" else m ++ " "
  | none => ""

/-- One `<li>` of the rendered ingredient list. -/
def ingredientLi (m : Option String) (ingText : String) : String :=
  "<li>" ++ measPrefix m ++ ingText ++ "</li>"

/-- One entry of the `ingredients` array `remixRecipe` computes. -/
def ingredientEntry (m : Option String) (ingText : String) : String :=
  measPrefix m ++ ingText

/-- Concatenation of a list of strings, in order. -/
def concatAll : List String → String
  | [] => ""
  | s :: ss => s ++ concatAll ss

/-! ## Concrete sample data for the witnesses and counterexamples -/

/-- A recipe record with one regular slot and one whitespace-only slot. -/
def sampleRecipe : Json :=
  .obj [("strMeal", .str "Test Pie"),
        ("strMealThumb", .str "pie.jpg"),
        ("strInstructions", .str "Mix.\nBake."),
        ("strIngredient1", .str "Flour"),
        ("strMeasure1", .str "1 cup"),
        ("strIngredient2", .str "   ")]

/-- Its ingredient slots, as functions of the index. -/
def sampleIng (i : Nat) : Option String :=
  if i = 1 then some "Flour" else if i = 2 then some "   " else none

/-- Its measure slots, as functions of the index. -/
def sampleMeas (i : Nat) : Option String :=
  if i = 1 then some "1 cup" else none

/-- A catalog response body whose `meals` list contains `sampleRecipe`. -/
def sampleMealsBody : Json := .obj [("meals", .arr [sampleRecipe])]

/-- A remix response body with an empty `choices` list. -/
def emptyChoicesBody : Json := .obj [("choices", .arr [])]

/-! ## General lemmas -/

/-- Rebuilding a `Char` from its code point is the identity. -/
theorem char_ofNat_toNat (c : Char) : Char.ofNat c.toNat = c := by
  rcases c with ⟨⟨⟨v, hv⟩⟩, hvalid⟩
  have h : Nat.isValidChar v := hvalid
  show Char.ofNat v = _
  rw [Char.ofNat, dif_pos h]
  apply Char.ext
  simp only [Char.ofNatAux]
  apply UInt32.ext
  rfl

/-- Mapping `Json.str` over names and testing `includes(name)` is membership. -/
theorem any_jsStrMatch (l : List String) (name : String) :
    (l.map Json.str).any (jsStrMatch name) = l.any (fun s => s == name) := by
  induction l with
  | nil => rfl
  | cons x xs ih => simp only [List.map_cons, List.any_cons, ih]; rfl

/-- Mapping `Json.str` over names and filtering out `name` commutes with the
string-level filter. -/
theorem filter_jsStrMatch (l : List String) (name : String) :
    (l.map Json.str).filter (fun j => !jsStrMatch name j)
      = (l.filter (fun s => !(s == name))).map Json.str := by
  induction l with
  | nil => rfl
  | cons x xs ih =>
    show List.filter _ (Json.str x :: xs.map Json.str) = _
    rw [List.filter_cons, List.filter_cons]
    have hhead : (!jsStrMatch name (Json.str x)) = (!(x == name)) := rfl
    rw [hhead, ih]
    cases hb : (x == name) <;> simp [hb]

/-- Coercing rendered saved items back is the identity on name lists. -/
theorem map_jsToString_str (l : List String) : (l.map Json.str).map jsToString = l := by
  induction l with
  | nil => rfl
  | cons x xs ih => simp only [List.map_cons, ih]; rfl

/-! ## Claim theorems -/

/-- C6: `fetchByName` with an empty (falsy) name is a complete no-op: the
state is untouched and no network request is made, whatever the network
would have answered. -/
theorem claim_C6_empty_name_noop (net : FetchResult) (st : ViewState) :
    fetchAndDisplayRecipeByName "" net st = (st, false) := rfl

/-- C4 (counterexample): `getSavedRecipes` does not always return a list —
a slot holding the valid JSON text `5` is returned as the number 5. -/
theorem claim_C4_counterexample :
    ¬ ∀ slot : Option String, ∃ xs : List Json, getSavedRecipes slot = Json.arr xs := by
  intro h
  obtain ⟨xs, hx⟩ := h (some "5")
  have h5 : getSavedRecipes (some "5") = Json.num "5" := rfl
  rw [h5] at hx
  exact Json.noConfusion hx

/-- C4 (amended): `getSavedRecipes` never raises; an absent slot, an
empty-string slot, or unparsable content all fail open to the empty list; but
content that parses as non-list JSON is returned as parsed, not as a list. -/
theorem claim_C4_load_fails_open :
    getSavedRecipes none = Json.arr []
      ∧ getSavedRecipes (some "") = Json.arr []
      ∧ (∀ s : String, parseJson s = none → getSavedRecipes (some s) = Json.arr [])
      ∧ (∀ (s : String) (j : Json), parseJson s = some j → getSavedRecipes (some s) = j) := by
  refine ⟨rfl, rfl, ?_, ?_⟩
  · intro s hp
    by_cases hs : s = ""
    · subst hs; rfl
    · simp only [getSavedRecipes, if_neg hs, hp]
  · intro s j hp
    by_cases hs : s = ""
    · subst hs
      have : (none : Option Json) = some j := hp
      exact Option.noConfusion this
    · simp only [getSavedRecipes, if_neg hs, hp]

/-- C4 (witness): both hypothesised branches at concrete slots. -/
theorem claim_C4_witness :
    getSavedRecipes (some "nope") = Json.arr [] ∧ getSavedRecipes (some "[]") = Json.arr [] :=
  ⟨claim_C4_load_fails_open.2.2.1 "nope" rfl,
   claim_C4_load_fails_open.2.2.2 "[]" (Json.arr []) rfl⟩

/-- C2: `add` is idempotent — when the slot's parsed list already contains
the name, `saveRecipeName` performs no write and the slot is returned
unchanged; and concretely, adding `"Lasagne"` twice starting from the absent
slot persists a list holding `"Lasagne"` exactly once. -/
theorem claim_C2_add_idempotent :
    (∀ (slot : Option String) (l : List String) (name : String),
        getSavedRecipes slot = strArr l → name ∈ l → saveRecipeName name slot = .ok slot)
      ∧ saveRecipeName "Lasagne" none = .ok (some "[\"Lasagne\"]")
      ∧ saveRecipeName "Lasagne" (some "[\"Lasagne\"]") = .ok (some "[\"Lasagne\"]")
      ∧ getSavedRecipes (some "[\"Lasagne\"]") = strArr ["Lasagne"] := by
  refine ⟨?_, rfl, rfl, rfl⟩
  intro slot l name h hm
  have hb : (l.map Json.str).any (jsStrMatch name) = true := by
    rw [any_jsStrMatch]
    simp only [List.any_eq_true]
    exact ⟨name, hm, by simp⟩
  simp only [saveRecipeName, h, strArr, hb, if_pos]

/-- C2 (witness): the idempotence branch applied at the persisted
one-element list. -/
theorem claim_C2_witness :
    saveRecipeName "Lasagne" (some "[\"Lasagne\"]") = .ok (some "[\"Lasagne\"]") :=
  claim_C2_add_idempotent.1 (some "[\"Lasagne\"]") ["Lasagne"] "Lasagne"
    claim_C2_add_idempotent.2.2.2 (List.mem_singleton.mpr rfl)

/-- C9: rendering the saved list hides the container and clears the markup
exactly when the loaded list is empty; otherwise it shows the container and
renders one item per saved name, in insertion order. -/
theorem claim_C9_saved_list_visibility (slot : Option String) (l : List String)
    (h : getSavedRecipes slot = strArr l) :
    renderSavedRecipesList slot
      = .ok (if l = [] then ⟨"none", []⟩ else ⟨"", l⟩) := by
  cases l with
  | nil => simp only [renderSavedRecipesList, h]; rfl
  | cons x xs =>
    simp only [renderSavedRecipesList, h, strArr, List.map_cons]
    have h0 : ((Json.str x :: List.map Json.str xs).length == 0) = false := by simp
    rw [h0, if_neg Bool.false_ne_true]
    have hmap := map_jsToString_str (x :: xs)
    simp only [List.map_cons] at hmap
    rw [hmap, if_neg (List.cons_ne_nil x xs)]

/-- C9 (witness): the hidden-empty case at the absent slot and the visible
one-item case at a persisted singleton. -/
theorem claim_C9_witness :
    renderSavedRecipesList none = .ok ⟨"none", []⟩
      ∧ renderSavedRecipesList (some "[\"Lasagne\"]") = .ok ⟨"", ["Lasagne"]⟩ := by
  constructor
  · exact claim_C9_saved_list_visibility none [] rfl
  · exact claim_C9_saved_list_visibility (some "[\"Lasagne\"]") ["Lasagne"] rfl

/-- C5 (counterexample): a non-success HTTP response whose body nonetheless
contains a recipe is rendered as a success — `fetchAndDisplayRandomRecipe`
never inspects `res.ok`, so no `NetworkError`-style failure occurs there. -/
theorem claim_C5_counterexample :
    (fetchAndDisplayRandomRecipe (.resp false (some sampleMealsBody)) ⟨"", none, ""⟩).currentRecipe
        = some sampleRecipe
      ∧ (fetchAndDisplayRandomRecipe (.resp false (some sampleMealsBody)) ⟨"", none, ""⟩).recipeDisplay
          ≠ randomFailMsg := by
  constructor
  · rfl
  · decide

/-- C5 (amended): the random-recipe handler ignores the HTTP status entirely;
transport failure, an unparsable body, and a missing/falsy recipe all collapse
into the same generic failure rendering, and any body carrying a recipe is
rendered whatever the status was. -/
theorem claim_C5_status_ignored (st : ViewState) :
    fetchAndDisplayRandomRecipe .netFail st = { st with recipeDisplay := randomFailMsg }
      ∧ (∀ ok, fetchAndDisplayRandomRecipe (.resp ok none) st
            = { st with recipeDisplay := randomFailMsg })
      ∧ (∀ ok data, jsTruthy (jsIndexOpt (jsGetOpt (some data) "meals") 0) = false →
          fetchAndDisplayRandomRecipe (.resp ok (some data)) st
            = { st with recipeDisplay := randomFailMsg })
      ∧ (∀ ok data r h, jsIndexOpt (jsGetOpt (some data) "meals") 0 = some r →
          jsTruthy (some r) = true → recipeHtml r = .ok h →
          fetchAndDisplayRandomRecipe (.resp ok (some data)) st
            = { st with recipeDisplay := h, currentRecipe := some r })
      ∧ (∀ ok data r e, jsIndexOpt (jsGetOpt (some data) "meals") 0 = some r →
          jsTruthy (some r) = true → recipeHtml r = .error e →
          fetchAndDisplayRandomRecipe (.resp ok (some data)) st
            = { st with recipeDisplay := randomFailMsg, currentRecipe := some r }) := by
  refine ⟨rfl, fun ok => rfl, ?_, ?_, ?_⟩
  · intro ok data hf
    cases hm : jsIndexOpt (jsGetOpt (some data) "meals") 0 with
    | none => simp [fetchAndDisplayRandomRecipe, hm]
    | some r =>
      rw [hm] at hf
      simp [fetchAndDisplayRandomRecipe, hm, hf]
  · intro ok data r h hm ht hr
    simp [fetchAndDisplayRandomRecipe, hm, ht, renderRecipe, hr]
  · intro ok data r e hm ht hr
    simp [fetchAndDisplayRandomRecipe, hm, ht, renderRecipe, hr]

/-- C5 (witness): the case split of the amended theorem is inhabited — a
success response whose body has no `meals` renders the generic failure. -/
theorem claim_C5_witness :
    fetchAndDisplayRandomRecipe (.resp true (some (Json.obj []))) ⟨"", none, ""⟩
      = { (⟨"", none, ""⟩ : ViewState) with recipeDisplay := randomFailMsg } :=
  (claim_C5_status_ignored ⟨"", none, ""⟩).2.2.1 true (Json.obj []) rfl

/-- C7: a successful name search with no matching recipe renders the
name-specific not-found message — which differs from the generic network
failure message for every name — and leaves `currentRecipe` untouched. -/
theorem claim_C7_notfound (name : String) (data : Json) (st : ViewState)
    (hname : name ≠ "")
    (hm : jsIndexOpt (jsGetOpt (some data) "meals") 0 = none) :
    fetchAndDisplayRecipeByName name (.resp true (some data)) st
        = ({ st with recipeDisplay := notFoundMsg name }, true)
      ∧ notFoundMsg name ≠ nameFailMsg
      ∧ ({ st with recipeDisplay := notFoundMsg name } : ViewState).currentRecipe
          = st.currentRecipe := by
  refine ⟨?_, ?_, rfl⟩
  · simp only [fetchAndDisplayRecipeByName, if_neg hname, hm]
  · intro hcontra
    have h9 : (notFoundMsg name).data.take 9 = nameFailMsg.data.take 9 := by rw [hcontra]
    have hexp : (notFoundMsg name).data.take 9
        = ("<p>Sorry, I couldn\x27t find the recipe \"" : String).data.take 9 := by
      show ((("<p>Sorry, I couldn\x27t find the recipe \"" : String) ++ name ++ "\".</p>").data).take 9
          = _
      rw [String.data_append, String.data_append]
      have hlen : 9 ≤ (("<p>Sorry, I couldn\x27t find the recipe \"" : String).data
          ++ name.data).length := by
        rw [List.length_append]
        have h38 : ("<p>Sorry, I couldn\x27t find the recipe \"" : String).data.length = 38 := by
          decide
        omega
      rw [List.take_append_of_le_length hlen,
        List.take_append_of_le_length (by decide)]
    rw [hexp] at h9
    exact absurd h9 (by decide)

/-- C7 (witness): the not-found scenario at a concrete name and an empty
`meals` list, with a loaded current recipe that stays in place. -/
theorem claim_C7_witness :
    fetchAndDisplayRecipeByName "Nonexistent Dish"
          (.resp true (some (Json.obj [("meals", Json.arr [])]))) ⟨"", some sampleRecipe, ""⟩
        = ({ (⟨"", some sampleRecipe, ""⟩ : ViewState) with
              recipeDisplay := notFoundMsg "Nonexistent Dish" }, true)
      ∧ notFoundMsg "Nonexistent Dish" ≠ nameFailMsg
      ∧ ({ (⟨"", some sampleRecipe, ""⟩ : ViewState) with
            recipeDisplay := notFoundMsg "Nonexistent Dish" } : ViewState).currentRecipe
          = (⟨"", some sampleRecipe, ""⟩ : ViewState).currentRecipe :=
  claim_C7_notfound "Nonexistent Dish" (Json.obj [("meals", Json.arr [])])
    ⟨"", some sampleRecipe, ""⟩ (by decide) rfl

/-- C8: a successful remix response whose `choices` list is empty makes
`remixRecipe` throw the empty-reply error, the click handler then renders the
generic remix-failure message, and `currentRecipe` is unchanged. -/
theorem claim_C8_empty_choices (st : ViewState) (r data : Json)
    (themeSelect : Option String) (l : List String)
    (hcur : st.currentRecipe = some r)
    (hing : remixIngredientsE r = .ok l)
    (hchoices : jsGetOpt (some data) "choices" = some (.arr [])) :
    remixRecipe r (themeOf themeSelect) (.success (some data))
        = .error "Empty reply from OpenAI"
      ∧ remixClickHandler st themeSelect (.success (some data))
          = { st with remixOutput := remixFailMsg }
      ∧ (remixClickHandler st themeSelect (.success (some data))).currentRecipe
          = st.currentRecipe := by
  have hrem : remixRecipe r (themeOf themeSelect) (.success (some data))
      = .error "Empty reply from OpenAI" := by
    simp only [remixRecipe, hing, hchoices]
    rfl
  refine ⟨hrem, ?_, ?_⟩
  · simp only [remixClickHandler, hcur, hrem]
  · simp only [remixClickHandler, hcur, hrem]

/-- C8 (witness): the empty-choices scenario at the sample recipe. -/
theorem claim_C8_witness :
    remixRecipe sampleRecipe (themeOf none) (.success (some emptyChoicesBody))
        = .error "Empty reply from OpenAI"
      ∧ remixClickHandler ⟨"", some sampleRecipe, ""⟩ none (.success (some emptyChoicesBody))
          = { (⟨"", some sampleRecipe, ""⟩ : ViewState) with remixOutput := remixFailMsg }
      ∧ (remixClickHandler ⟨"", some sampleRecipe, ""⟩ none
            (.success (some emptyChoicesBody))).currentRecipe
          = (⟨"", some sampleRecipe, ""⟩ : ViewState).currentRecipe :=
  claim_C8_empty_choices ⟨"", some sampleRecipe, ""⟩ sampleRecipe emptyChoicesBody none
    ["1 cup Flour"] rfl rfl rfl

/-- Characterization of the `getIngredientsHtml` loop over any index list
whose ingredient/measure fields are string-or-absent: it succeeds and appends
exactly the non-blank slots, in order. -/
theorem getIngredientsHtmlAux_spec (recipe : Json) (ing meas : Nat → Option String)
    (is : List Nat) :
    ∀ acc : String,
    (∀ i ∈ is, jsGetE recipe (ingKey i) = .ok ((ing i).map Json.str)
        ∧ jsGetE recipe (measKey i) = .ok ((meas i).map Json.str)) →
    getIngredientsHtmlAux recipe is acc
      = .ok (acc ++ concatAll ((is.filter (fun i => nonBlankSlot (ing i))).map
          (fun i => ingredientLi (meas i) ((ing i).getD "")))) := by
  induction is with
  | nil =>
    intro acc _
    simp [getIngredientsHtmlAux, concatAll, String.append_empty]
  | cons i rest ih =>
    intro acc H
    obtain ⟨hI, hM⟩ := H i (by simp)
    have Hrest : ∀ j ∈ rest, jsGetE recipe (ingKey j) = .ok ((ing j).map Json.str)
        ∧ jsGetE recipe (measKey j) = .ok ((meas j).map Json.str) :=
      fun j hj => H j (by simp [hj])
    simp only [getIngredientsHtmlAux, hI, hM]
    cases hing : ing i with
    | none =>
      simp only [Option.map_none']
      rw [show jsTruthy none = false from rfl]
      rw [ih acc Hrest]
      simp [List.filter_cons, nonBlankSlot, hing]
    | some s =>
      simp only [Option.map_some']
      rw [show jsTruthy (some (Json.str s)) = !s.data.isEmpty from rfl]
      by_cases hs : s.data.isEmpty
      · rw [hs]
        rw [show (!true) = false from rfl, if_neg Bool.false_ne_true]
        rw [ih acc Hrest]
        have hsnil : s = "" := by
          cases s with
          | mk d => cases d with
            | nil => rfl
            | cons a as => simp [List.isEmpty] at hs
        subst hsnil
        simp [List.filter_cons, nonBlankSlot, hing, jsStrTrim, trimWs]
      · rw [eq_false_of_ne_true hs, show (!false) = true from rfl, if_pos rfl]
        simp only [jsTrimE]
        by_cases ht : (jsStrTrim s).data.isEmpty
        · rw [ht, show (!true) = false from rfl, if_neg Bool.false_ne_true]
          rw [ih acc Hrest]
          simp [List.filter_cons, nonBlankSlot, hing, ht]
        · rw [eq_false_of_ne_true ht, show (!false) = true from rfl, if_pos rfl]
          rw [ih _ Hrest]
          have hfil : (i :: rest).filter (fun j => nonBlankSlot (ing j))
              = i :: rest.filter (fun j => nonBlankSlot (ing j)) := by
            simp [List.filter_cons, nonBlankSlot, hing, ht]
          rw [hfil]
          simp only [List.map_cons, concatAll]
          have hli : ingredientLi (meas i) ((ing i).getD "")
              = "<li>" ++ (if jsTruthy ((meas i).map Json.str) = true
                  then jsToStringOpt ((meas i).map Json.str) ++ " " else "")
                ++ jsToStringOpt (some (Json.str s)) ++ "</li>" := by
            rw [hing]
            cases hmeas : meas i with
            | none => simp [ingredientLi, measPrefix, jsToStringOpt, jsToString, jsTruthy,
                String.append_empty]
            | some m =>
              cases hmb : m.data.isEmpty with
              | true =>
                rw [show jsTruthy ((some m).map Json.str) = !m.data.isEmpty from rfl, hmb]
                simp [ingredientLi, measPrefix, hmb, jsToStringOpt, jsToString]
              | false =>
                rw [show jsTruthy ((some m).map Json.str) = !m.data.isEmpty from rfl, hmb]
                simp [ingredientLi, measPrefix, hmb, jsToStringOpt, jsToString]
          rw [hli]
          simp [String.append_assoc]

/-- Characterization of the `remixRecipe` ingredients loop over any index
list whose fields are string-or-absent: it succeeds and collects exactly the
non-blank slots, in order. -/
theorem remixIngredientsAux_spec (recipe : Json) (ing meas : Nat → Option String)
    (is : List Nat) :
    ∀ acc : List String,
    (∀ i ∈ is, jsGetE recipe (ingKey i) = .ok ((ing i).map Json.str)
        ∧ jsGetE recipe (measKey i) = .ok ((meas i).map Json.str)) →
    remixIngredientsAux recipe is acc
      = .ok (acc ++ (is.filter (fun i => nonBlankSlot (ing i))).map
          (fun i => ingredientEntry (meas i) ((ing i).getD ""))) := by
  induction is with
  | nil =>
    intro acc _
    simp [remixIngredientsAux]
  | cons i rest ih =>
    intro acc H
    obtain ⟨hI, hM⟩ := H i (by simp)
    have Hrest : ∀ j ∈ rest, jsGetE recipe (ingKey j) = .ok ((ing j).map Json.str)
        ∧ jsGetE recipe (measKey j) = .ok ((meas j).map Json.str) :=
      fun j hj => H j (by simp [hj])
    simp only [remixIngredientsAux, hI, hM]
    cases hing : ing i with
    | none =>
      simp only [Option.map_none']
      rw [show jsTruthy none = false from rfl]
      rw [ih acc Hrest]
      simp [List.filter_cons, nonBlankSlot, hing]
    | some s =>
      simp only [Option.map_some']
      rw [show jsTruthy (some (Json.str s)) = !s.data.isEmpty from rfl]
      by_cases hs : s.data.isEmpty
      · rw [hs]
        rw [show (!true) = false from rfl, if_neg Bool.false_ne_true]
        rw [ih acc Hrest]
        have hsnil : s = "" := by
          cases s with
          | mk d => cases d with
            | nil => rfl
            | cons a as => simp [List.isEmpty] at hs
        subst hsnil
        simp [List.filter_cons, nonBlankSlot, hing, jsStrTrim, trimWs]
      · rw [eq_false_of_ne_true hs, show (!false) = true from rfl, if_pos rfl]
        simp only [jsTrimE]
        by_cases ht : (jsStrTrim s).data.isEmpty
        · rw [ht, show (!true) = false from rfl, if_neg Bool.false_ne_true]
          rw [ih acc Hrest]
          simp [List.filter_cons, nonBlankSlot, hing, ht]
        · rw [eq_false_of_ne_true ht, show (!false) = true from rfl, if_pos rfl]
          rw [ih _ Hrest]
          have hfil : (i :: rest).filter (fun j => nonBlankSlot (ing j))
              = i :: rest.filter (fun j => nonBlankSlot (ing j)) := by
            simp [List.filter_cons, nonBlankSlot, hing, ht]
          rw [hfil]
          simp only [List.map_cons]
          have hent : ingredientEntry (meas i) ((ing i).getD "")
              = (if jsTruthy ((meas i).map Json.str) = true
                  then jsToStringOpt ((meas i).map Json.str) ++ " " else "")
                ++ jsToStringOpt (some (Json.str s)) := by
            rw [hing]
            cases hmeas : meas i with
            | none => simp [ingredientEntry, measPrefix, jsToStringOpt, jsToString, jsTruthy,
                String.empty_append]
            | some m =>
              cases hmb : m.data.isEmpty with
              | true =>
                rw [show jsTruthy ((some m).map Json.str) = !m.data.isEmpty from rfl, hmb]
                simp [ingredientEntry, measPrefix, hmb, jsToStringOpt, jsToString]
              | false =>
                rw [show jsTruthy ((some m).map Json.str) = !m.data.isEmpty from rfl, hmb]
                simp [ingredientEntry, measPrefix, hmb, jsToStringOpt, jsToString]
          rw [hent]
          simp [List.append_assoc]

/-- C1: for every recipe record whose twenty ingredient/measure slots are
strings or absent, the rendered list (`getIngredientsHtml`) and the
ingredient array `remixRecipe` computes both contain exactly the non-blank
slots — absent, empty, and whitespace-only ingredient texts are excluded —
each rendered once, in increasing index order 1..20. -/
theorem claim_C1_blank_slots_excluded (recipe : Json) (ing meas : Nat → Option String)
    (H : ∀ i ∈ List.range' 1 20,
        jsGetE recipe (ingKey i) = .ok ((ing i).map Json.str)
          ∧ jsGetE recipe (measKey i) = .ok ((meas i).map Json.str)) :
    getIngredientsHtml recipe
        = .ok (concatAll (((List.range' 1 20).filter (fun i => nonBlankSlot (ing i))).map
            (fun i => ingredientLi (meas i) ((ing i).getD ""))))
      ∧ remixIngredientsE recipe
          = .ok (((List.range' 1 20).filter (fun i => nonBlankSlot (ing i))).map
              (fun i => ingredientEntry (meas i) ((ing i).getD ""))) := by
  constructor
  · rw [getIngredientsHtml, getIngredientsHtmlAux_spec recipe ing meas _ "" H,
      String.empty_append]
  · rw [remixIngredientsE, remixIngredientsAux_spec recipe ing meas _ [] H,
      List.nil_append]

/-- C1 (witness): the sample recipe, whose slot 1 is regular and slot 2 is
whitespace-only, renders and collects exactly the one non-blank slot. -/
theorem claim_C1_witness :
    getIngredientsHtml sampleRecipe
        = .ok (concatAll (((List.range' 1 20).filter (fun i => nonBlankSlot (sampleIng i))).map
            (fun i => ingredientLi (sampleMeas i) ((sampleIng i).getD ""))))
      ∧ remixIngredientsE sampleRecipe
          = .ok (((List.range' 1 20).filter (fun i => nonBlankSlot (sampleIng i))).map
              (fun i => ingredientEntry (sampleMeas i) ((sampleIng i).getD ""))) :=
  claim_C1_blank_slots_excluded sampleRecipe sampleIng sampleMeas
    (by intro i hi; fin_cases hi <;> exact ⟨rfl, rfl⟩)

/-- Dropping JSON whitespace does nothing at a non-whitespace head. -/
theorem dropWs_cons_not (c : Char) (cs : List Char) (h : jsonWs c = false) :
    dropWs (c :: cs) = c :: cs := by
  simp [dropWs, List.dropWhile_cons, h]

/-- Step equation: closing quote. -/
theorem parseStrChars_quote (cs : List Char) : parseStrChars ('"' :: cs) = some ([], cs) := by
  rw [parseStrChars.eq_def]; simp

/-- Step equation: named escape. -/
theorem parseStrChars_escaped (e v : Char) (cs : List Char)
    (hu : e ≠ 'u') (he : escMap e = some v) :
    parseStrChars ('\\' :: e :: cs) = (parseStrChars cs).map (fun p => (v :: p.1, p.2)) := by
  rw [parseStrChars.eq_def]; simp [hu, he]

/-- Step equation: unicode escape. -/
theorem parseStrChars_unicode (h1 h2 h3 h4 : Char) (a b c3 d : Nat) (cs : List Char)
    (ha : hexVal h1 = some a) (hb : hexVal h2 = some b)
    (hc : hexVal h3 = some c3) (hd : hexVal h4 = some d) :
    parseStrChars ('\\' :: 'u' :: h1 :: h2 :: h3 :: h4 :: cs)
      = (parseStrChars cs).map
          (fun p => (Char.ofNat (((a * 16 + b) * 16 + c3) * 16 + d) :: p.1, p.2)) := by
  rw [parseStrChars.eq_def]; simp [ha, hb, hc, hd]

/-- Step equation: ordinary character. -/
theorem parseStrChars_plain (c : Char) (cs : List Char)
    (hq : c ≠ '"') (hbs : c ≠ '\\') (hctl : ¬c.toNat < 0x20) :
    parseStrChars (c :: cs) = (parseStrChars cs).map (fun p => (c :: p.1, p.2)) := by
  rw [parseStrChars.eq_def]; simp [hq, hbs, hctl]

/-- Hex digits printed by the escaper are read back by the parser. -/
theorem hexVal_hexDigitChar : ∀ n : Nat, n < 16 → hexVal (hexDigitChar n) = some n := by
  decide

/-- The string-body parser inverts the `JSON.stringify` escaper. -/
theorem parseStrChars_esc (cs : List Char) : ∀ rest,
    parseStrChars (escChars cs ++ '"' :: rest) = some (cs, rest) := by
  induction cs with
  | nil =>
    intro rest
    show parseStrChars ('"' :: rest) = _
    exact parseStrChars_quote rest
  | cons c cs ih =>
    intro rest
    show parseStrChars ((escChar c ++ escChars cs) ++ '"' :: rest) = _
    rw [List.append_assoc]
    by_cases h1 : c = '"'
    · subst h1
      rw [show escChar '"' = ['\\', '"'] from rfl]
      simp only [List.cons_append, List.nil_append]
      rw [parseStrChars_escaped '"' '"' _ (by decide) (by decide), ih rest]
      rfl
    by_cases h2 : c = '\\'
    · subst h2
      rw [show escChar '\\' = ['\\', '\\'] from rfl]
      simp only [List.cons_append, List.nil_append]
      rw [parseStrChars_escaped '\\' '\\' _ (by decide) (by decide), ih rest]
      rfl
    by_cases h3 : c = '\n'
    · subst h3
      rw [show escChar '\n' = ['\\', 'n'] from rfl]
      simp only [List.cons_append, List.nil_append]
      rw [parseStrChars_escaped 'n' '\n' _ (by decide) (by decide), ih rest]
      rfl
    by_cases h4 : c = '\r'
    · subst h4
      rw [show escChar '\r' = ['\\', 'r'] from rfl]
      simp only [List.cons_append, List.nil_append]
      rw [parseStrChars_escaped 'r' '\r' _ (by decide) (by decide), ih rest]
      rfl
    by_cases h5 : c = '\t'
    · subst h5
      rw [show escChar '\t' = ['\\', 't'] from rfl]
      simp only [List.cons_append, List.nil_append]
      rw [parseStrChars_escaped 't' '\t' _ (by decide) (by decide), ih rest]
      rfl
    by_cases h6 : c = '\x08'
    · subst h6
      rw [show escChar '\x08' = ['\\', 'b'] from rfl]
      simp only [List.cons_append, List.nil_append]
      rw [parseStrChars_escaped 'b' '\x08' _ (by decide) (by decide), ih rest]
      rfl
    by_cases h7 : c = '\x0c'
    · subst h7
      rw [show escChar '\x0c' = ['\\', 'f'] from rfl]
      simp only [List.cons_append, List.nil_append]
      rw [parseStrChars_escaped 'f' '\x0c' _ (by decide) (by decide), ih rest]
      rfl
    by_cases h8 : c.toNat < 0x20
    · have hesc : escChar c
          = ['\\', 'u', '0', '0', hexDigitChar (c.toNat / 16), hexDigitChar (c.toNat % 16)] := by
        simp only [escChar, if_neg h1, if_neg h2, if_neg h3, if_neg h4, if_neg h5, if_neg h6,
          if_neg h7, if_pos h8]
      rw [hesc]
      have hd1 : c.toNat / 16 < 16 := by omega
      have hd2 : c.toNat % 16 < 16 := by omega
      simp only [List.cons_append, List.nil_append]
      rw [parseStrChars_unicode '0' '0' _ _ 0 0 _ _ _ (by decide) (by decide)
        (hexVal_hexDigitChar _ hd1) (hexVal_hexDigitChar _ hd2), ih rest]
      have harg : ((0 * 16 + 0) * 16 + c.toNat / 16) * 16 + c.toNat % 16 = c.toNat := by omega
      rw [harg, char_ofNat_toNat]
      rfl
    · have hesc : escChar c = [c] := by
        simp only [escChar, if_neg h1, if_neg h2, if_neg h3, if_neg h4, if_neg h5, if_neg h6,
          if_neg h7, if_neg h8]
      rw [hesc]
      simp only [List.cons_append, List.nil_append]
      rw [parseStrChars_plain c _ h1 h2 h8, ih rest]
      rfl

/-- Step equation: a value starting with a quote parses as a string. -/
theorem parseVal_quote (f : Nat) (r : List Char) :
    parseVal (f + 1) ('"' :: r) = (parseStrChars r).map (fun p => (.str ⟨p.1⟩, p.2)) := by
  rw [parseVal.eq_def]
  simp [dropWs_cons_not, jsonWs]

/-- A serialized string literal parses back to its string. -/
theorem parseVal_serStr (f : Nat) (s : String) (rest : List Char) :
    parseVal (f + 1) ((serStr s).data ++ rest) = some (.str s, rest) := by
  show parseVal (f + 1) (('"' :: (escChars s.data ++ ['"'])) ++ rest) = _
  rw [List.cons_append, List.append_assoc, parseVal_quote]
  rw [show (['"'] ++ rest : List Char) = '"' :: rest from rfl]
  rw [parseStrChars_esc]
  rfl

/-- Step equation: a value starting with an open bracket parses as an array. -/
theorem parseVal_bracket (f : Nat) (r : List Char) :
    parseVal (f + 1) ('[' :: r)
      = (match dropWs r with
         | ']' :: r2 => some (.arr [], r2)
         | r2 => (parseElems f r2).map (fun p => (.arr p.1, p.2))) := by
  rw [parseVal.eq_def]
  simp [dropWs_cons_not, jsonWs]

/-- Step equation: one round of the element parser at positive fuel. -/
theorem parseElems_succ (f : Nat) (cs : List Char) :
    parseElems (f + 1) cs
      = match parseVal f cs with
        | none => none
        | some (v, r) =>
          match dropWs r with
          | ',' :: r2 =>
            (match parseElems f r2 with
             | none => none
             | some (vs, r3) => some (v :: vs, r3))
          | ']' :: r2 => some ([v], r2)
          | _ => none := by
  rw [parseElems.eq_def]

/-- A serialized non-empty element list followed by the closing bracket
parses back to its elements, given enough fuel. -/
theorem parseElems_ser (l : List String) : ∀ (f : Nat) (rest : List Char),
    l.length + 1 ≤ f → l ≠ [] →
    parseElems f ((stringifyElems (l.map Json.str)).data ++ ']' :: rest)
      = some (l.map Json.str, rest) := by
  induction l with
  | nil => intro f rest _ h; exact absurd rfl h
  | cons x xs ih =>
    intro f rest hf _
    obtain ⟨f1, rfl⟩ : ∃ k, f = k + 1 := ⟨f - 1, by omega⟩
    rw [parseElems_succ]
    cases xs with
    | nil =>
      rw [show stringifyElems ([x].map Json.str) = serStr x from rfl]
      obtain ⟨f2, rfl⟩ : ∃ k, f1 = k + 1 := ⟨f1 - 1, by simp [List.length_cons] at hf; omega⟩
      rw [parseVal_serStr]
      simp [dropWs_cons_not, jsonWs]
    | cons y ys =>
      rw [show stringifyElems ((x :: y :: ys).map Json.str)
          = serStr x ++ "," ++ stringifyElems ((y :: ys).map Json.str) from rfl]
      rw [String.data_append, String.data_append, List.append_assoc, List.append_assoc]
      rw [show (("," : String).data) = [','] from rfl]
      rw [show ([','] ++ ((stringifyElems ((y :: ys).map Json.str)).data ++ ']' :: rest) : List Char)
          = ',' :: ((stringifyElems ((y :: ys).map Json.str)).data ++ ']' :: rest) from rfl]
      obtain ⟨f2, rfl⟩ : ∃ k, f1 = k + 1 := ⟨f1 - 1, by simp [List.length_cons] at hf; omega⟩
      rw [parseVal_serStr]
      have hih : parseElems (f2 + 1)
          ((stringifyElems ((y :: ys).map Json.str)).data ++ ']' :: rest)
          = some ((y :: ys).map Json.str, rest) := by
        apply ih
        · simp [List.length_cons] at hf ⊢; omega
        · simp
      simp only [List.map_cons] at hih
      simp [dropWs_cons_not, jsonWs, hih]

/-- A serialized string literal is at least two characters (its quotes). -/
theorem serStr_len (x : String) : 2 ≤ (serStr x).data.length := by
  show 2 ≤ ('"' :: (escChars x.data ++ ['"'])).length
  simp [List.length_cons, List.length_append]

/-- The serialized element list is at least as long as the list. -/
theorem stringifyElems_len (l : List String) :
    l.length ≤ (stringifyElems (l.map Json.str)).data.length := by
  induction l with
  | nil => simp
  | cons x xs ih =>
    cases xs with
    | nil =>
      have h1 := serStr_len x
      show (1 : Nat) ≤ (serStr x).data.length
      omega
    | cons y ys =>
      have h1 := serStr_len x
      rw [show stringifyElems ((x :: y :: ys).map Json.str)
          = serStr x ++ "," ++ stringifyElems ((y :: ys).map Json.str) from rfl]
      rw [String.data_append, String.data_append]
      simp only [List.length_append, List.length_cons] at ih ⊢
      omega

/-- Round trip: the compact serialization of a saved-name list parses back to
exactly that list. -/
theorem parseJson_stringify_strArr (l : List String) :
    parseJson (stringifyJson (strArr l)) = some (strArr l) := by
  cases l with
  | nil => rfl
  | cons x xs =>
    have hlen := stringifyElems_len (x :: xs)
    rw [show stringifyJson (strArr (x :: xs))
        = "[" ++ stringifyElems ((x :: xs).map Json.str) ++ "]" from rfl]
    simp only [parseJson]
    have hdata : ("[" ++ stringifyElems ((x :: xs).map Json.str) ++ "]").data
        = '[' :: ((stringifyElems ((x :: xs).map Json.str)).data ++ [']']) := by
      rw [String.data_append, String.data_append]
      rfl
    rw [hdata]
    have hfuel : ('[' :: ((stringifyElems ((x :: xs).map Json.str)).data ++ [']'])).length + 1
        = ((stringifyElems ((x :: xs).map Json.str)).data.length + 2) + 1 := by
      simp [List.length_cons, List.length_append]
    rw [hfuel, parseVal_bracket]
    obtain ⟨t, ht⟩ : ∃ t, (stringifyElems ((x :: xs).map Json.str)).data = '"' :: t := by
      cases xs with
      | nil => exact ⟨escChars x.data ++ ['"'], rfl⟩
      | cons y ys =>
        refine ⟨(escChars x.data ++ ['"'])
          ++ (("," : String).data ++ (stringifyElems ((y :: ys).map Json.str)).data), ?_⟩
        rw [show stringifyElems ((x :: y :: ys).map Json.str)
            = serStr x ++ "," ++ stringifyElems ((y :: ys).map Json.str) from rfl]
        rw [String.data_append, String.data_append]
        rw [show (serStr x).data = '"' :: (escChars x.data ++ ['"']) from rfl]
        simp [List.append_assoc]
    rw [ht]
    rw [show (('"' :: t) ++ [']'] : List Char) = '"' :: (t ++ [']']) from rfl]
    rw [dropWs_cons_not _ _ (by decide)]
    rw [show (match ('"' :: (t ++ [']']) : List Char) with
        | ']' :: r2 => some (Json.arr [], r2)
        | r2 => (parseElems (('"' :: t).length + 2) r2).map (fun p => (Json.arr p.1, p.2)))
        = (parseElems (('"' :: t).length + 2) ('"' :: (t ++ [']']))).map
            (fun p => (Json.arr p.1, p.2)) from rfl]
    rw [show ('"' :: (t ++ [']']) : List Char) = ('"' :: t) ++ [']'] from rfl]
    rw [← ht]
    rw [show ([']'] : List Char) = ']' :: [] from rfl]
    rw [parseElems_ser (x :: xs) _ []
      (by
        have h2 := hlen
        have h3 : (stringifyElems ((x :: xs).map Json.str)).data.length = t.length + 1 := by
          rw [ht]; rfl
        simp only [List.length_cons, List.length_append, List.length_singleton, h3] at h2 ⊢
        omega)
      (by simp)]
    simp [dropWs, strArr]

/-- C3: `deleteSavedRecipe` persists the slot's parsed list with every entry
equal to the name removed (so the persisted list — read back through
`getSavedRecipes` — is exactly the filtered list), and for a name not present
the persisted list equals the list before. -/
theorem claim_C3_remove (slot : Option String) (l : List String) (name : String)
    (h : getSavedRecipes slot = strArr l) :
    deleteSavedRecipe name slot
        = .ok (some (stringifyJson (strArr (l.filter (fun s => !(s == name))))))
      ∧ getSavedRecipes (some (stringifyJson (strArr (l.filter (fun s => !(s == name))))))
          = strArr (l.filter (fun s => !(s == name)))
      ∧ (name ∉ l →
          deleteSavedRecipe name slot = .ok (some (stringifyJson (strArr l)))) := by
  have hdel : deleteSavedRecipe name slot
      = .ok (some (stringifyJson (strArr (l.filter (fun s => !(s == name)))))) := by
    simp only [deleteSavedRecipe, h, strArr, setSavedRecipes]
    rw [filter_jsStrMatch]
  refine ⟨hdel, ?_, ?_⟩
  · have hrt := parseJson_stringify_strArr (l.filter (fun s => !(s == name)))
    simp only [getSavedRecipes]
    have hne : stringifyJson (strArr (l.filter (fun s => !(s == name)))) ≠ "" := by
      intro hcontra
      have : (stringifyJson (strArr (l.filter (fun s => !(s == name))))).data = [] := by
        rw [hcontra]
      cases hfl : l.filter (fun s => !(s == name)) with
      | nil => rw [hfl] at this; exact List.noConfusion this
      | cons a as =>
        rw [hfl] at this
        have hx : (stringifyJson (strArr (a :: as))).data
            = '[' :: ((stringifyElems ((a :: as).map Json.str)).data ++ [']']) := by
          rw [show stringifyJson (strArr (a :: as))
              = "[" ++ stringifyElems ((a :: as).map Json.str) ++ "]" from rfl]
          rw [String.data_append, String.data_append]
          rfl
        rw [hx] at this
        exact List.noConfusion this
    rw [if_neg hne, hrt]
  · intro hnm
    have hfl : l.filter (fun s => !(s == name)) = l := by
      apply List.filter_eq_self.mpr
      intro a ha
      simp only [Bool.not_eq_true']
      rw [beq_eq_false_iff_ne]
      intro hceq
      exact hnm (hceq ▸ ha)
    rw [hdel, hfl]

/-- C3 (witness): deleting an absent name from the persisted singleton list
keeps the persisted list intact, and the filtered serialization reads back. -/
theorem claim_C3_witness :
    deleteSavedRecipe "Bread" (some "[\"Lasagne\"]")
        = .ok (some (stringifyJson (strArr (["Lasagne"].filter (fun s => !(s == "Bread"))))))
      ∧ getSavedRecipes
            (some (stringifyJson (strArr (["Lasagne"].filter (fun s => !(s == "Bread"))))))
          = strArr (["Lasagne"].filter (fun s => !(s == "Bread")))
      ∧ ("Bread" ∉ ["Lasagne"] →
          deleteSavedRecipe "Bread" (some "[\"Lasagne\"]")
            = .ok (some (stringifyJson (strArr ["Lasagne"])))) :=
  claim_C3_remove (some "[\"Lasagne\"]") ["Lasagne"] "Bread" rfl

/-- C10: the user prompt `remixRecipe` transmits embeds the complete raw
recipe record — its full pretty `JSON.stringify` is a contiguous substring of
the prompt — and the prompt and request body are fully determined by that raw
serialization plus the theme, so the filtered `ingredients` array the function
computes never reaches the request: concretely, the whitespace-only slot the
array excludes still appears verbatim inside the transmitted prompt. -/
theorem claim_C10_raw_record_transmitted :
    (∀ (recipeJson : Json) (theme : String),
        ∃ pre suf, (remixUserPrompt recipeJson theme).data
          = pre ++ (ppJson recipeJson 0).data ++ suf)
      ∧ (∀ (r1 r2 : Json) (theme : String), ppJson r1 0 = ppJson r2 0 →
          remixUserPrompt r1 theme = remixUserPrompt r2 theme
            ∧ remixRequestBody r1 theme = remixRequestBody r2 theme)
      ∧ remixIngredientsE sampleRecipe = .ok ["1 cup Flour"]
      ∧ (∃ pre suf, (remixUserPrompt sampleRecipe "Vegan").data
          = pre ++ ("\"strIngredient2\": \"   \"" : String).data ++ suf) := by
  refine ⟨?_, ?_, rfl, ?_⟩
  · intro recipeJson theme
    refine ⟨("Here is a recipe in JSON format:\n" : String).data,
      (("\n\nRemix theme: \"" ++ theme ++ "\"\n\n" ++ remixPromptTail : String)).data, ?_⟩
    show (("Here is a recipe in JSON format:\n" ++ ppJson recipeJson 0
        ++ "\n\nRemix theme: \"" ++ theme ++ "\"\n\n" ++ remixPromptTail) : String).data = _
    simp [String.data_append, List.append_assoc]
  · intro r1 r2 theme hpp
    constructor
    · simp only [remixUserPrompt, hpp]
    · simp only [remixRequestBody, remixUserPrompt, hpp]
  · refine ⟨("Here is a recipe in JSON format:\n\x7b\n  \"strMeal\": \"Test Pie\",\n  \"strMealThumb\": \"pie.jpg\",\n  \"strInstructions\": \"Mix.\\nBake.\",\n  \"strIngredient1\": \"Flour\",\n  \"strMeasure1\": \"1 cup\",\n  " : String).data,
      (("\n\x7d\n\nRemix theme: \"Vegan\"\n\n" ++ remixPromptTail : String)).data, ?_⟩
    rfl

/-- C10 (witness): the determinism clause applied at the sample recipe. -/
theorem claim_C10_witness :
    remixUserPrompt sampleRecipe "Vegan" = remixUserPrompt sampleRecipe "Vegan"
      ∧ remixRequestBody sampleRecipe "Vegan" = remixRequestBody sampleRecipe "Vegan" :=
  claim_C10_raw_record_transmitted.2.1 sampleRecipe sampleRecipe "Vegan" rfl
